import Mathlib

set_option linter.unusedVariables false

/-!
Verification of the attention-pattern generation and block-layout subsystem
of the repository (xformers attention patterns and their test baselines).

Masks are modelled as Boolean functions on flat (row-major) indices; a mask
of shape R x C is the restriction of such a function to indices below the
bounds.  Fallible operations (precondition checks implemented as assertions
in the Python code) are modelled as `Option`-returning functions: `none`
models an `AssertionError`.
-/

namespace AttentionPatterns

/-- Entry `(i, j)` of `torch.tril(torch.ones(n, n), diagonal = d)` viewed as a
Boolean matrix: true iff `j ≤ i + d` (the diagonal offset `d` may be
negative).  Embeds the `torch.tril` calls of the test baseline. -/
def tril_ones (d : Int) (i j : Nat) : Bool :=
  decide ((j : Int) ≤ (i : Int) + d)

/-- Baseline reference implementation from the repository's test file
(`_local_1d_pattern` in tests/test_attention_patterns.py): asserts the
window size is odd, then builds
`tril(ones, h_win_size) & ~tril(ones, -(h_win_size+1))` where
`h_win_size = window_size // 2`.  `none` models the assertion failure. -/
def ref_local_1d_pattern (attn_size window_size : Nat) :
    Option (Nat → Nat → Bool) :=
  if window_size % 2 = 1 then
    some (fun i j =>
      tril_ones ((window_size : Int) / 2) i j &&
      !tril_ones (-((window_size : Int) / 2 + 1)) i j)
  else
    none

/-- Modelled from the spec: `local_1d_pattern(size, window)` from the missing
`attention_patterns` module — requires window odd (precondition error
otherwise), and `mask(i, j) = true` iff `|i - j| ≤ window // 2`. -/
def local_1d_pattern (attn_size window_size : Nat) :
    Option (Nat → Nat → Bool) :=
  if window_size % 2 = 1 then
    some (fun i j => decide (|(i : Int) - (j : Int)| ≤ (window_size : Int) / 2))
  else
    none

/-- Row coordinate of flat index `a` in a row-major `H x W` grid: embeds the
`i` array of `_generate_2d_grid` followed by flattening. -/
def grid_i (W a : Nat) : Nat := a / W

/-- Column coordinate of flat index `a` in a row-major `H x W` grid: embeds
the `j` array of `_generate_2d_grid` followed by flattening. -/
def grid_j (W a : Nat) : Nat := a % W

/-- Modelled from the spec: `swin_attention_pattern(H, W, window, shift)` from
the missing `attention_patterns` module — partitions the `H x W` grid into
non-overlapping `window x window` tiles after conceptually shifting the grid
by `shift` in both axes; `mask(a, b) = true` iff the cells at flat indices
`a` and `b` fall in the same tile post-shift (cell `(y, x)` belongs to tile
`((y + shift) / window, (x + shift) / window)`). -/
def swin_attention_pattern (H W window shift : Nat) (a b : Nat) : Bool :=
  decide ((grid_i W a + shift) / window = (grid_i W b + shift) / window ∧
          (grid_j W a + shift) / window = (grid_j W b + shift) / window)

/-- Flat-index embedding of the crop used by the swin pad/crop test: cell
`(y, x)` of the original `H x W` grid sits at cell `(y + window/2,
x + window/2)` of the padded `(H+window) x (W+window)` grid.  Instantiated
at `H = W = 8`, `window = 4`. -/
def swin_crop_embed (a : Nat) : Nat :=
  (grid_i 8 a + 2) * 12 + (grid_j 8 a + 2)

/-- Modelled from the spec: `dilated_2d_pattern(H, W, k)` from the missing
`attention_patterns` module — cell `(h, w)` attends to cell `(h2, w2)` iff
`h2 ≡ h (mod k)` and `w2 ≡ w (mod k)`; flat row-major indexing. -/
def dilated_2d_pattern (H W k : Nat) (a b : Nat) : Bool :=
  decide (grid_i W a % k = grid_i W b % k ∧ grid_j W a % k = grid_j W b % k)

/-- Modelled from the spec: the per-head decay scale of `alibi_pattern` from
the missing `attention_patterns` module — a geometric ratio per head index
(head `h` decays by factor `(1/2)^(h+1)` per unit of distance). -/
def alibi_slope (h : Nat) : ℚ := (1 / 2 : ℚ) ^ (h + 1)

/-- Modelled from the spec: the decay weight of `alibi_pattern` at head `h`
and positions `(i, j)` — decays geometrically with the absolute relative
distance `|i - j|`, scaled per head; distance zero gives weight one. -/
def alibi_weight (h i j : Nat) : ℚ :=
  alibi_slope h ^ (max i j - min i j)

/-- Modelled from the spec: `alibi_pattern(threshold, (heads, N, N))` from the
missing `attention_patterns` module — boolean-thresholds the per-head decay
weight at `threshold`: entry `(h, i, j)` is true iff the weight is at least
the threshold. -/
def alibi_pattern (threshold : ℚ) (heads N : Nat) (h i j : Nat) : Bool :=
  decide (threshold ≤ alibi_weight h i j)

/-- Whether any element of the `block x block` tile with block coordinates
`(I, J)` of `mask` is set: the logical-OR tile reduction at the heart of
`pattern_to_layout`. -/
def block_any (mask : Nat → Nat → Bool) (block I J : Nat) : Bool :=
  decide (∃ i < block, ∃ j < block, mask (I * block + i) (J * block + j) = true)

/-- Modelled from the spec: `pattern_to_layout(mask, block)` from the missing
`attention_patterns` module — for a mask of trailing shape `R x C`, asserts
that both trailing dimensions are exactly divisible by `block` (`none`
models the assertion failure), then reduces each `block x block` tile by
logical OR to a single bit, returned as an integer 0/1 layout of shape
`(R/block) x (C/block)`. -/
def pattern_to_layout (R C : Nat) (mask : Nat → Nat → Bool) (block : Nat) :
    Option (Nat → Nat → Nat) :=
  if R % block = 0 ∧ C % block = 0 then
    some (fun I J => if block_any mask block I J then 1 else 0)
  else
    none

/-- Vertical concatenation (`torch.cat` along the row axis) of a list of
masks, each of row count `N`: row `i` of the result is row `i % N` of the
`(i / N)`-th mask. -/
def vcat_masks (N : Nat) (ms : List (Nat → Nat → Bool)) (i j : Nat) : Bool :=
  (ms.getD (i / N) (fun _ _ => false)) (i % N) j

/-- The all-ones `torch.ones` Boolean mask used by `test_pattern_to_layout`. -/
def full_mask (i j : Nat) : Bool := true

/-- The identity `torch.eye` Boolean mask used by `test_pattern_to_layout`. -/
def eye_mask (i j : Nat) : Bool := decide (i = j)

/-- The strictly-lower-triangular (`torch.tril(ones, diagonal = -1)`) Boolean
mask used by `test_pattern_to_layout`. -/
def strict_tril_mask (i j : Nat) : Bool := decide (j < i)

open Classical in
/-- Per-coordinate contribution of `torch.cdist` under the `p`-norm, as used
by the baseline distance functions in the test file: for `p = 0` a
coordinate contributes 1 when the two values differ and 0 otherwise (the
`equal or not` convention); for `p ≥ 1` it contributes `|x - y| ^ p`. -/
noncomputable def coord_dist (p : Nat) (x y : ℝ) : ℝ :=
  if p = 0 then (if x = y then 0 else 1) else |x - y| ^ p

/-- Final reduction of `torch.cdist` under the `p`-norm: the sum of the
per-coordinate contributions, raised to the power `1/p` when `p ≥ 1`. -/
noncomputable def lp_reduce (p : Nat) (s : ℝ) : ℝ :=
  if p = 0 then s else s ^ ((p : ℝ)⁻¹)

/-- Embeds `_horizontal_axial_2d_distance` from the test file: pairwise
`cdist` under the `p`-norm of the flattened row coordinates of the grid. -/
noncomputable def horizontal_axial_2d_distance (H W p : Nat) (a b : Nat) : ℝ :=
  lp_reduce p (coord_dist p (grid_i W a : ℝ) (grid_i W b : ℝ))

/-- Embeds `_vertical_axial_2d_distance` from the test file: pairwise
`cdist` under the `p`-norm of the flattened column coordinates of the
grid. -/
noncomputable def vertical_axial_2d_distance (H W p : Nat) (a b : Nat) : ℝ :=
  lp_reduce p (coord_dist p (grid_j W a : ℝ) (grid_j W b : ℝ))

/-- Embeds `_local_2d_distance` from the test file: pairwise `cdist` under
the `p`-norm of the stacked (row, column) coordinate pairs of the grid. -/
noncomputable def local_2d_distance (H W p : Nat) (a b : Nat) : ℝ :=
  lp_reduce p (coord_dist p (grid_i W a : ℝ) (grid_i W b : ℝ) +
               coord_dist p (grid_j W a : ℝ) (grid_j W b : ℝ))

theorem coord_dist_comm (p : Nat) (x y : ℝ) :
    coord_dist p x y = coord_dist p y x := by
  unfold coord_dist
  by_cases hp : p = 0
  · simp only [if_pos hp]
    by_cases h : x = y
    · rw [if_pos h, if_pos h.symm]
    · rw [if_neg h, if_neg (mt Eq.symm h)]
  · simp only [if_neg hp]
    rw [abs_sub_comm]

theorem coord_dist_self (p : Nat) (x : ℝ) : coord_dist p x x = 0 := by
  unfold coord_dist
  by_cases hp : p = 0
  · simp [hp]
  · simp [hp, zero_pow hp]

theorem lp_reduce_zero (p : Nat) : lp_reduce p 0 = 0 := by
  unfold lp_reduce
  by_cases hp : p = 0
  · simp [hp]
  · rw [if_neg hp, Real.zero_rpow (inv_ne_zero (Nat.cast_ne_zero.mpr hp))]

theorem block_any_iff (mask : Nat → Nat → Bool) (block I J : Nat) :
    block_any mask block I J = true ↔
      ∃ i < block, ∃ j < block, mask (I * block + i) (J * block + j) = true := by
  simp [block_any]

theorem pattern_to_layout_of_dvd (R C : Nat) (mask : Nat → Nat → Bool)
    (block : Nat) (hR : R % block = 0) (hC : C % block = 0) :
    pattern_to_layout R C mask block =
      some (fun I J => if block_any mask block I J then 1 else 0) := by
  simp [pattern_to_layout, hR, hC]

/-- C3: for every size `n` and every odd window size `w`,
`local_1d_pattern(n, w)` succeeds and equals both the explicit
`|i - j| ≤ w // 2` matrix and the reference
`tril(ones, w//2) & ~tril(ones, -(w//2 + 1))` construction from the test
baseline. -/
theorem local_1d_pattern_correct (n w : Nat) (hw : w % 2 = 1) :
    ∃ m, local_1d_pattern n w = some m ∧
      (∀ i j, m i j = decide (|(i : Int) - (j : Int)| ≤ (w : Int) / 2)) ∧
      (∃ mr, ref_local_1d_pattern n w = some mr ∧ ∀ i j, m i j = mr i j) := by
  have h1 : local_1d_pattern n w =
      some (fun (i j : Nat) =>
        decide (|(i : Int) - (j : Int)| ≤ (w : Int) / 2)) := by
    unfold local_1d_pattern
    rw [if_pos hw]
  have h2 : ref_local_1d_pattern n w =
      some (fun (i j : Nat) =>
        tril_ones ((w : Int) / 2) i j &&
        !tril_ones (-((w : Int) / 2 + 1)) i j) := by
    unfold ref_local_1d_pattern
    rw [if_pos hw]
  refine ⟨_, h1, fun i j => rfl, _, h2, ?_⟩
  intro i j
  simp only [tril_ones, ← decide_not, ← Bool.decide_and, decide_eq_decide]
  rw [abs_le]
  omega

/-- Witness for `local_1d_pattern_correct` at `n = 5`, `w = 3`. -/
theorem local_1d_pattern_correct_witness :
    3 % 2 = 1 ∧
    (∃ m, local_1d_pattern 5 3 = some m ∧
      (∀ i j, m i j = decide (|(i : Int) - (j : Int)| ≤ (3 : Int) / 2)) ∧
      (∃ mr, ref_local_1d_pattern 5 3 = some mr ∧ ∀ i j, m i j = mr i j)) :=
  ⟨by decide, local_1d_pattern_correct 5 3 (by decide)⟩

/-- C8: `local_1d_pattern(n, w)` fails with a precondition error (modelled as
`none`) for every even window size `w`, and returns a mask exactly when the
window size is odd; the in-repository reference `_local_1d_pattern` behaves
identically. -/
theorem local_1d_pattern_even_window_fails (n w : Nat) (hw : w % 2 = 0) :
    local_1d_pattern n w = none ∧ ref_local_1d_pattern n w = none ∧
      (∀ w2, w2 % 2 = 1 →
        (local_1d_pattern n w2).isSome ∧ (ref_local_1d_pattern n w2).isSome) := by
  refine ⟨by simp [local_1d_pattern, hw], by simp [ref_local_1d_pattern, hw], ?_⟩
  intro w2 hw2
  exact ⟨by simp [local_1d_pattern, hw2], by simp [ref_local_1d_pattern, hw2]⟩

/-- Witness for `local_1d_pattern_even_window_fails` at `n = 5`, `w = 4`. -/
theorem local_1d_pattern_even_window_fails_witness :
    4 % 2 = 0 ∧
    (local_1d_pattern 5 4 = none ∧ ref_local_1d_pattern 5 4 = none ∧
      (∀ w2, w2 % 2 = 1 →
        (local_1d_pattern 5 w2).isSome ∧ (ref_local_1d_pattern 5 w2).isSome)) :=
  ⟨by decide, local_1d_pattern_even_window_fails 5 4 (by decide)⟩

/-- C9: the axial and 2D distance baselines are pure (hence deterministic)
functions of their arguments, symmetric in the two positions, and zero on
the diagonal — for every `H`, `W` and every `p` (in particular
`p ∈ {0, 1, 2}`). -/
theorem distance_matrices_symm_diag_zero (H W p : Nat) :
    (∀ a b, horizontal_axial_2d_distance H W p a b
          = horizontal_axial_2d_distance H W p b a) ∧
    (∀ a b, vertical_axial_2d_distance H W p a b
          = vertical_axial_2d_distance H W p b a) ∧
    (∀ a b, local_2d_distance H W p a b = local_2d_distance H W p b a) ∧
    (∀ a, horizontal_axial_2d_distance H W p a a = 0) ∧
    (∀ a, vertical_axial_2d_distance H W p a a = 0) ∧
    (∀ a, local_2d_distance H W p a a = 0) := by
  refine ⟨fun a b => ?_, fun a b => ?_, fun a b => ?_, fun a => ?_, fun a => ?_, fun a => ?_⟩
  · unfold horizontal_axial_2d_distance
    rw [coord_dist_comm]
  · unfold vertical_axial_2d_distance
    rw [coord_dist_comm]
  · unfold local_2d_distance
    rw [coord_dist_comm, coord_dist_comm p (grid_j W a : ℝ)]
  · unfold horizontal_axial_2d_distance
    rw [coord_dist_self, lp_reduce_zero]
  · unfold vertical_axial_2d_distance
    rw [coord_dist_self, lp_reduce_zero]
  · unfold local_2d_distance
    rw [coord_dist_self, coord_dist_self, add_zero, lp_reduce_zero]

theorem flat_div (x y W : Nat) (hy : y < W) : (x * W + y) / W = x := by
  have h0 : 0 < W := lt_of_le_of_lt (Nat.zero_le y) hy
  rw [mul_comm, Nat.mul_add_div h0, Nat.div_eq_of_lt hy, Nat.add_zero]

theorem flat_mod (x y W : Nat) (hy : y < W) : (x * W + y) % W = y := by
  rw [mul_comm, Nat.mul_add_mod, Nat.mod_eq_of_lt hy]

/-- C4: in `dilated_2d_pattern(H, W, k)`, the source cell `(h, w)` attends to
the target cell `(h2, w2)` iff `h2 ≡ h (mod k)` and `w2 ≡ w (mod k)`:
every position in the same residue class is included and every position in
a different residue class is excluded. -/
theorem dilated_2d_pattern_residue (H W k h w h2 w2 : Nat)
    (hw : w < W) (hw2 : w2 < W) :
    dilated_2d_pattern H W k (h * W + w) (h2 * W + w2) = true ↔
      (h2 % k = h % k ∧ w2 % k = w % k) := by
  unfold dilated_2d_pattern grid_i grid_j
  rw [flat_div h w W hw, flat_div h2 w2 W hw2, flat_mod h w W hw,
    flat_mod h2 w2 W hw2]
  simp only [decide_eq_true_eq]
  exact ⟨fun h => ⟨h.1.symm, h.2.symm⟩, fun h => ⟨h.1.symm, h.2.symm⟩⟩

/-- Witness for `dilated_2d_pattern_residue` at `H = W = 8`, `k = 2`,
source cell `(1, 2)`, target cell `(3, 4)`. -/
theorem dilated_2d_pattern_residue_witness :
    (2 < 8 ∧ 4 < 8) ∧
    (dilated_2d_pattern 8 8 2 (1 * 8 + 2) (3 * 8 + 4) = true ↔
      (3 % 2 = 1 % 2 ∧ 4 % 2 = 2 % 2)) :=
  ⟨⟨by decide, by decide⟩,
    dilated_2d_pattern_residue 8 8 2 1 2 3 4 (by decide) (by decide)⟩

/-- C5: with shift 0 and the window size dividing both `H` and `W`, the swin
pattern relates two cells iff they lie in the same non-overlapping
`window x window` tile: each tile fully attends to itself and there is no
attention between distinct tiles. -/
theorem swin_attention_pattern_unshifted (H W window : Nat)
    (hH : H % window = 0) (hW : W % window = 0) (y x y2 x2 : Nat)
    (hx : x < W) (hx2 : x2 < W) :
    swin_attention_pattern H W window 0 (y * W + x) (y2 * W + x2) = true ↔
      (y / window = y2 / window ∧ x / window = x2 / window) := by
  unfold swin_attention_pattern grid_i grid_j
  rw [flat_div y x W hx, flat_div y2 x2 W hx2, flat_mod y x W hx,
    flat_mod y2 x2 W hx2]
  simp only [Nat.add_zero, decide_eq_true_eq]

/-- Witness for `swin_attention_pattern_unshifted` at `H = W = 8`,
`window = 2`, cells `(0, 1)` and `(0, 0)`. -/
theorem swin_attention_pattern_unshifted_witness :
    (8 % 2 = 0 ∧ 8 % 2 = 0 ∧ 1 < 8 ∧ 0 < 8) ∧
    (swin_attention_pattern 8 8 2 0 (0 * 8 + 1) (0 * 8 + 0) = true ↔
      (0 / 2 = 0 / 2 ∧ 1 / 2 = 0 / 2)) :=
  ⟨⟨by decide, by decide, by decide, by decide⟩,
    swin_attention_pattern_unshifted 8 8 2 (by decide) (by decide) 0 1 0 0
      (by decide) (by decide)⟩

/-- C2: for `H = W = 8`, `window = 4`, the shifted swin pattern with shift
`window / 2 = 2` equals the unshifted swin pattern computed on the padded
`12 x 12` grid, cropped to the centered `8 x 8` region in all four index
axes: shifting is equivalent to padding, unshifted computation, then
cropping. -/
theorem swin_shift_pad_crop_equiv :
    ∀ a < 64, ∀ b < 64,
      swin_attention_pattern 8 8 4 2 a b =
        swin_attention_pattern 12 12 4 0 (swin_crop_embed a) (swin_crop_embed b) := by
  decide

/-- Witness for `swin_shift_pad_crop_equiv` at `a = 9`, `b = 27`. -/
theorem swin_shift_pad_crop_equiv_witness :
    (9 < 64 ∧ 27 < 64) ∧
    swin_attention_pattern 8 8 4 2 9 27 =
      swin_attention_pattern 12 12 4 0 (swin_crop_embed 9) (swin_crop_embed 27) :=
  ⟨⟨by decide, by decide⟩,
    swin_shift_pad_crop_equiv 9 (by decide) 27 (by decide)⟩

/-- C6: every head of `alibi_pattern(threshold, (heads, N, N))` has a true
entry at position `(0, 0)` whenever the threshold is at most one (position
`(0, 0)` has zero relative distance, so decay never eliminates it
regardless of the per-head scale); in particular at threshold `1/1000`
with 16 heads exactly 16 heads retain a true `(0, 0)` entry. -/
theorem alibi_pattern_corner_true (threshold : ℚ) (heads N h : Nat)
    (ht : threshold ≤ 1) (hh : h < heads) :
    alibi_pattern threshold heads N h 0 0 = true ∧
      (List.range 16).countP
        (fun h2 => alibi_pattern (1 / 1000) 16 128 h2 0 0) = 16 := by
  constructor
  · unfold alibi_pattern alibi_weight
    simp only [Nat.max_self, Nat.min_self, Nat.sub_self, pow_zero,
      decide_eq_true_eq]
    exact ht
  · have hall : ∀ h2 ∈ List.range 16,
        alibi_pattern (1 / 1000) 16 128 h2 0 0 = true := by
      intro h2 _
      unfold alibi_pattern alibi_weight
      simp only [Nat.max_self, Nat.min_self, Nat.sub_self, pow_zero,
        decide_eq_true_eq]
      norm_num
    exact (List.countP_eq_length.mpr hall).trans (List.length_range 16)

/-- Witness for `alibi_pattern_corner_true` at threshold `1/1000`, 16 heads,
`N = 128`, head 0. -/
theorem alibi_pattern_corner_true_witness :
    ((1 / 1000 : ℚ) ≤ 1 ∧ 0 < 16) ∧
    (alibi_pattern (1 / 1000) 16 128 0 0 0 = true ∧
      (List.range 16).countP
        (fun h2 => alibi_pattern (1 / 1000) 16 128 h2 0 0) = 16) :=
  ⟨⟨by norm_num, by decide⟩,
    alibi_pattern_corner_true (1 / 1000) 16 128 0 (by norm_num) (by decide)⟩

/-- C7: `pattern_to_layout` fails with a precondition error (modelled as
`none`, producing no layout) whenever a trailing dimension of the mask is
not exactly divisible by the block size; in particular a `129 x 128` mask
with block 16 is rejected rather than rounded or coerced. -/
theorem pattern_to_layout_precondition (R C : Nat) (mask : Nat → Nat → Bool)
    (block : Nat) (hmis : ¬(R % block = 0 ∧ C % block = 0)) :
    pattern_to_layout R C mask block = none ∧
      pattern_to_layout 129 128 full_mask 16 = none := by
  constructor
  · unfold pattern_to_layout
    rw [if_neg hmis]
  · unfold pattern_to_layout
    rw [if_neg (by decide)]

/-- Witness for `pattern_to_layout_precondition` at the `129 x 128` mask with
block 16. -/
theorem pattern_to_layout_precondition_witness :
    ¬(129 % 16 = 0 ∧ 128 % 16 = 0) ∧
    (pattern_to_layout 129 128 full_mask 16 = none ∧
      pattern_to_layout 129 128 full_mask 16 = none) :=
  ⟨by decide, pattern_to_layout_precondition 129 128 full_mask 16 (by decide)⟩

/-- C1: whenever `block` exactly divides `N`, `pattern_to_layout` on an
`N x N` mask returns an `(N/block) x (N/block)` integer layout in which
each entry is 1 iff at least one element of the corresponding
`block x block` tile of the mask is set, and 0 otherwise; in particular at
`N = 128`, `block = 16`, the all-true mask yields the all-ones `8 x 8`
layout, the identity mask yields the `8 x 8` identity layout, and the
strictly-lower-triangular mask yields the lower-triangular-including-
diagonal `8 x 8` layout. -/
theorem pattern_to_layout_correct (N block : Nat) (mask : Nat → Nat → Bool)
    (hb : block ∣ N) :
    (∃ L, pattern_to_layout N N mask block = some L ∧
      ∀ I J, (L I J = 1 ↔ ∃ i < block, ∃ j < block,
                mask (I * block + i) (J * block + j) = true) ∧
             (L I J = 0 ∨ L I J = 1)) ∧
    (∃ L1, pattern_to_layout 128 128 full_mask 16 = some L1 ∧
      ∀ I < 8, ∀ J < 8, L1 I J = 1) ∧
    (∃ L2, pattern_to_layout 128 128 eye_mask 16 = some L2 ∧
      ∀ I < 8, ∀ J < 8, L2 I J = (if I = J then 1 else 0)) ∧
    (∃ L3, pattern_to_layout 128 128 strict_tril_mask 16 = some L3 ∧
      ∀ I < 8, ∀ J < 8, L3 I J = (if J ≤ I then 1 else 0)) := by
  have hmod : N % block = 0 := by
    obtain ⟨c, rfl⟩ := hb
    exact Nat.mul_mod_right block c
  refine ⟨⟨_, pattern_to_layout_of_dvd N N mask block hmod hmod, ?_⟩,
          ⟨_, pattern_to_layout_of_dvd 128 128 full_mask 16 rfl rfl, ?_⟩,
          ⟨_, pattern_to_layout_of_dvd 128 128 eye_mask 16 rfl rfl, ?_⟩,
          ⟨_, pattern_to_layout_of_dvd 128 128 strict_tril_mask 16 rfl rfl, ?_⟩⟩
  · intro I J
    by_cases hba : block_any mask block I J = true
    · rw [if_pos hba]
      exact ⟨iff_of_true rfl ((block_any_iff mask block I J).mp hba),
        Or.inr rfl⟩
    · rw [if_neg hba]
      exact ⟨iff_of_false (by omega)
        (fun hex => hba ((block_any_iff mask block I J).mpr hex)),
        Or.inl rfl⟩
  · intro I hI J hJ
    have hba : block_any full_mask 16 I J = true :=
      (block_any_iff _ _ _ _).mpr ⟨0, by omega, 0, by omega, rfl⟩
    simp [hba]
  · intro I hI J hJ
    by_cases hIJ : I = J
    · subst hIJ
      have hba : block_any eye_mask 16 I I = true :=
        (block_any_iff _ _ _ _).mpr
          ⟨0, by omega, 0, by omega, by simp [eye_mask]⟩
      simp [hba]
    · have hba : ¬ block_any eye_mask 16 I J = true := by
        rw [block_any_iff]
        rintro ⟨i, hi, j, hj, hm⟩
        simp only [eye_mask, decide_eq_true_eq] at hm
        omega
      simp [hba, hIJ]
  · intro I hI J hJ
    by_cases hJI : J ≤ I
    · have hba : block_any strict_tril_mask 16 I J = true :=
        (block_any_iff _ _ _ _).mpr ⟨15, by omega, 0, by omega, by
          simp only [strict_tril_mask, decide_eq_true_eq]
          omega⟩
      simp [hba, hJI]
    · have hba : ¬ block_any strict_tril_mask 16 I J = true := by
        rw [block_any_iff]
        rintro ⟨i, hi, j, hj, hm⟩
        simp only [strict_tril_mask, decide_eq_true_eq] at hm
        omega
      simp [hba, hJI]

/-- Witness for `pattern_to_layout_correct` at `N = 128`, `block = 16`, with
the identity mask. -/
theorem pattern_to_layout_correct_witness :
    (16 ∣ 128) ∧
    ((∃ L, pattern_to_layout 128 128 eye_mask 16 = some L ∧
      ∀ I J, (L I J = 1 ↔ ∃ i < 16, ∃ j < 16,
                eye_mask (I * 16 + i) (J * 16 + j) = true) ∧
             (L I J = 0 ∨ L I J = 1)) ∧
    (∃ L1, pattern_to_layout 128 128 full_mask 16 = some L1 ∧
      ∀ I < 8, ∀ J < 8, L1 I J = 1) ∧
    (∃ L2, pattern_to_layout 128 128 eye_mask 16 = some L2 ∧
      ∀ I < 8, ∀ J < 8, L2 I J = (if I = J then 1 else 0)) ∧
    (∃ L3, pattern_to_layout 128 128 strict_tril_mask 16 = some L3 ∧
      ∀ I < 8, ∀ J < 8, L3 I J = (if J ≤ I then 1 else 0))) :=
  ⟨by decide, pattern_to_layout_correct 128 16 eye_mask (by decide)⟩

theorem vcat_masks_apply (N : Nat) (ms : List (Nat → Nat → Bool)) (m r j : Nat)
    (hr : r < N) :
    vcat_masks N ms (m * N + r) j = ms.getD m (fun _ _ => false) r j := by
  unfold vcat_masks
  rw [flat_div m r N hr, flat_mod m r N hr]

/-- C10: `pattern_to_layout` distributes over concatenation of square
`N x N` masks along the leading row axis: entry `(m*(N/block) + I, J)` of
the layout of the vertical concatenation equals entry `(I, J)` of the
layout of the `m`-th mask; in particular a non-square `(k*N) x N` input
whose dimensions are each divisible by the block size is accepted and
reduced blockwise rather than rejected as a shape mismatch. -/
theorem pattern_to_layout_vcat (N block : Nat) (ms : List (Nat → Nat → Bool))
    (hb : block ∣ N) (hb0 : 0 < block) :
    ∃ L, pattern_to_layout (ms.length * N) N (vcat_masks N ms) block = some L ∧
      ∀ m, m < ms.length → ∀ I, I < N / block → ∀ J,
        ∃ Lm, pattern_to_layout N N (ms.getD m (fun _ _ => false)) block
                = some Lm ∧
          L (m * (N / block) + I) J = Lm I J := by
  obtain ⟨c, rfl⟩ := hb
  have hmodN : (block * c) % block = 0 := Nat.mul_mod_right block c
  have hmodT : (ms.length * (block * c)) % block = 0 := by
    rw [show ms.length * (block * c) = block * (ms.length * c) by ring]
    exact Nat.mul_mod_right block _
  have hq : block * c / block = c := Nat.mul_div_cancel_left c hb0
  refine ⟨_, pattern_to_layout_of_dvd _ _ _ _ hmodT hmodN, ?_⟩
  intro m hm I hI J
  refine ⟨_, pattern_to_layout_of_dvd _ _ _ _ hmodN hmodN, ?_⟩
  rw [hq] at hI
  have hpt : ∀ i < block, ∀ j,
      vcat_masks (block * c) ms ((m * c + I) * block + i) j
        = ms.getD m (fun _ _ => false) (I * block + i) j := by
    intro i hi j
    have h1 : I * block + i < (I + 1) * block := by
      rw [Nat.succ_mul]
      exact Nat.add_lt_add_left hi _
    have h2 : (I + 1) * block ≤ c * block :=
      Nat.mul_le_mul_right block (Nat.succ_le_of_lt hI)
    have hbound : I * block + i < block * c :=
      lt_of_lt_of_le (lt_of_lt_of_le h1 h2) (le_of_eq (Nat.mul_comm c block))
    rw [show (m * c + I) * block + i
          = m * (block * c) + (I * block + i) by ring]
    exact vcat_masks_apply (block * c) ms m (I * block + i) j hbound
  have hkey : block_any (vcat_masks (block * c) ms) block (m * c + I) J
            = block_any (ms.getD m (fun _ _ => false)) block I J := by
    unfold block_any
    rw [decide_eq_decide]
    constructor
    · rintro ⟨i, hi, j, hj, hmask⟩
      exact ⟨i, hi, j, hj, by rw [← hpt i hi (J * block + j)]; exact hmask⟩
    · rintro ⟨i, hi, j, hj, hmask⟩
      exact ⟨i, hi, j, hj, by rw [hpt i hi (J * block + j)]; exact hmask⟩
  show (if block_any (vcat_masks (block * c) ms) block
          (m * (block * c / block) + I) J then (1 : Nat) else 0)
     = (if block_any (ms.getD m (fun _ _ => false)) block I J
          then (1 : Nat) else 0)
  rw [hq, hkey]

/-- Witness for `pattern_to_layout_vcat` at `N = 128`, `block = 16`, with the
three masks concatenated by the repository's test. -/
theorem pattern_to_layout_vcat_witness :
    ((16 ∣ 128) ∧ 0 < 16) ∧
    (∃ L, pattern_to_layout
        ([full_mask, eye_mask, strict_tril_mask].length * 128) 128
        (vcat_masks 128 [full_mask, eye_mask, strict_tril_mask]) 16 = some L ∧
      ∀ m, m < [full_mask, eye_mask, strict_tril_mask].length →
        ∀ I, I < 128 / 16 → ∀ J,
        ∃ Lm, pattern_to_layout 128 128
                ([full_mask, eye_mask, strict_tril_mask].getD m
                  (fun _ _ => false)) 16 = some Lm ∧
          L (m * (128 / 16) + I) J = Lm I J) :=
  ⟨⟨by decide, by decide⟩,
    pattern_to_layout_vcat 128 16 [full_mask, eye_mask, strict_tril_mask]
      (by decide) (by decide)⟩

end AttentionPatterns
